import Mathlib

/-!
Verification of `single_global_task_scheduler.py` (class `SingleGlobalTaskRunner`).

Shallow embedding notes.

* A worker is a zero-argument Python callable that is invoked once per cycle
  and may raise.  We model it as an oracle `Worker : Nat → Except Err Val`
  indexed by the invocation count, so that one Lean function describes the
  whole (possibly varying) sequence of results/exceptions of the impure
  Python callable.  `Val` and `Err` are `Int` codes; the particular carrier
  is irrelevant to every claim.
* The background thread body `_task_runner` is the loop

      while not self._stop_thread:
          try:
              result = self.worker()
              with param.edit_constant(self):
                  self.value = result
                  self.exception = None
          except Exception as ex:
              with param.edit_constant(self):
                  self.exception = ex
          if not self._stop_thread:
              self._log("Sleeping")
              time.sleep(self.seconds)

  One `loopStep` is one iteration of this `while` loop.  The worker call and
  the two stores are modelled as instantaneous; only `time.sleep(self.seconds)`
  advances the clock `now` (by `seconds`).  Crucially, `time.sleep` is NOT
  interruptible: the `_stop_thread` flag is read at the top of the iteration
  and just before sleeping, and a flag set while the thread is inside
  `time.sleep` is only observed when the sleep has fully elapsed.  `loopStep`
  therefore takes the flag value once per iteration (the two reads inside an
  iteration happen at the same model time), and `timedStep` below derives the
  flag of each iteration from the time at which the flag was externally set.
* Durations are rationals (`ℚ`), standing for the positive floats accepted by
  the `seconds` parameter; none of the claims depends on binary rounding.
-/

abbrev Val := Int
abbrev Err := Int
abbrev Worker := Nat → Except Err Val

/-- State of one background thread running `_task_runner`:
`now` is the thread's clock, `k` counts worker invocations so far,
`value`/`exc` are the handle's `value` and `exception` parameters (written
only by this thread), `done` records that the `while` loop has exited. -/
structure LoopState where
  now : ℚ
  k : Nat
  value : Option Val
  exc : Option Err
  done : Bool
deriving Repr, DecidableEq

/-- The loop state right after `threading.Thread(...).start()`: no invocation
has happened yet, and the stores `value₀`/`exc₀` are whatever the handle's
parameters held when the thread started. -/
def initLoop (value₀ : Option Val) (exc₀ : Option Err) : LoopState :=
  { now := 0, k := 0, value := value₀, exc := exc₀, done := false }

/-- One iteration of the `while not self._stop_thread` loop of `_task_runner`,
with `flag` the value of `self._stop_thread` during this iteration.
If the flag is set the loop condition fails and the thread exits; otherwise
the worker is invoked, its result or exception is published (success stores
the result and clears `exception`; failure stores the exception and leaves
`value` untouched), and — the flag still being unset at the pre-sleep check —
the thread sleeps for `seconds`. -/
def loopStep (w : Worker) (seconds : ℚ) (flag : Bool) (st : LoopState) :
    LoopState :=
  if st.done then st
  else if flag then { st with done := true }
  else
    let st1 :=
      match w st.k with
      | .ok v => { st with value := some v, exc := none, k := st.k + 1 }
      | .error e => { st with exc := some e, k := st.k + 1 }
    { st1 with now := st1.now + seconds }

/-- One iteration when the stop flag is set externally at absolute time
`stopAt`: the iteration observes the flag iff it had been set by the time the
iteration starts, i.e. a flag set during the previous iteration's
`time.sleep` is only seen here, after that sleep has fully elapsed. -/
def timedStep (w : Worker) (seconds : ℚ) (stopAt : ℚ) (st : LoopState) :
    LoopState :=
  loopStep w seconds (decide (stopAt ≤ st.now)) st

/-- State after `n` iterations of the loop with the stop flag never set. -/
def runLoop (w : Worker) (seconds : ℚ) : Nat → LoopState
  | 0 => initLoop none none
  | n + 1 => loopStep w seconds false (runLoop w seconds n)

/-- A worker that always succeeds, returning `0`: models
`lambda: 0` handed to `SingleGlobalTaskRunner` as `worker`. -/
def wOK : Worker := fun _ => .ok 0

/-- A worker whose first invocation returns `1` and whose every later
invocation raises error code `7`. -/
def wThenFail : Worker := fun k => if k = 0 then .ok 1 else .error 7

/-- Stop-to-exit latency of the scenario in which the loop is started at time
`0`, the first cycle's worker call succeeds, the thread goes to sleep, and
`remove` sets `_stop_thread` at time `ts` while the thread is inside
`time.sleep(seconds)` (i.e. `0 < ts ≤ s`).  The loop exits in the following
iteration, whose clock is this expression's first operand. -/
def stopToExitLatency (s ts : ℚ) : ℚ :=
  (timedStep wOK s ts (timedStep wOK s ts (initLoop none none))).now - ts

/-- Behaviour of the loop when the stop flag is never requested:
the loop never exits, performs exactly one worker invocation per iteration,
advances its clock by exactly `seconds` per iteration, and after a cycle
whose invocation failed, `exception` holds that cycle's error. -/
theorem runLoop_spec (w : Worker) (seconds : ℚ) (n : Nat) :
    (runLoop w seconds n).done = false ∧
    (runLoop w seconds n).k = n ∧
    (runLoop w seconds n).now = n * seconds := by
  induction n with
  | zero => simp [runLoop, initLoop]
  | succ n ih =>
    obtain ⟨hdone, hk, hnow⟩ := ih
    unfold runLoop loopStep
    rcases hw : w (runLoop w seconds n).k with v | e <;>
      simp [hdone, hw, hk, hnow] <;> ring

/-- Closed form of the stop-during-sleep scenario: the iteration that was
sleeping completes in full, and only the next iteration's
`while not self._stop_thread` check observes the flag and exits, at time `s`. -/
theorem timedStep_closed_form (s ts : ℚ) (h1 : 0 < ts) (h2 : ts ≤ s) :
    timedStep wOK s ts (initLoop none none) =
      { now := s, k := 1, value := some 0, exc := none, done := false } ∧
    timedStep wOK s ts (timedStep wOK s ts (initLoop none none)) =
      { now := s, k := 1, value := some 0, exc := none, done := true } := by
  have hts0 : ¬ (ts ≤ 0) := by linarith
  have hfirst : timedStep wOK s ts (initLoop none none) =
      { now := s, k := 1, value := some 0, exc := none, done := false } := by
    simp [timedStep, loopStep, initLoop, wOK, hts0]
  refine ⟨hfirst, ?_⟩
  rw [hfirst]
  simp [timedStep, loopStep, h2]

/-- C4: in every cycle that actually runs (loop not yet exited, stop flag not
observed), a successful worker call stores the result into `value` and clears
`exception`, while a failing worker call stores the exception into
`exception` and leaves `value` at its prior content. -/
theorem publish_last_known_good (w : Worker) (s : ℚ) (st : LoopState)
    (hdone : st.done = false) :
    (∀ v, w st.k = .ok v →
      (loopStep w s false st).value = some v ∧
      (loopStep w s false st).exc = none) ∧
    (∀ e, w st.k = .error e →
      (loopStep w s false st).exc = some e ∧
      (loopStep w s false st).value = st.value) := by
  constructor
  · intro v hv
    simp [loopStep, hdone, hv]
  · intro e he
    simp [loopStep, hdone, he]

/-- Witness for `publish_last_known_good`, at the worker `wThenFail` in its
success cycle and in its failure cycle. -/
theorem publish_last_known_good_witness :
    ((loopStep wThenFail 1 false (initLoop none none)).value = some 1 ∧
      (loopStep wThenFail 1 false (initLoop none none)).exc = none) ∧
    ((loopStep wThenFail 1 false (runLoop wThenFail 1 1)).exc = some 7 ∧
      (loopStep wThenFail 1 false (runLoop wThenFail 1 1)).value =
        (runLoop wThenFail 1 1).value) := by
  constructor
  · exact (publish_last_known_good wThenFail 1 (initLoop none none) rfl).1 1 rfl
  · have hk : (runLoop wThenFail 1 1).k = 1 := (runLoop_spec wThenFail 1 1).2.1
    apply (publish_last_known_good wThenFail 1 (runLoop wThenFail 1 1)
      (runLoop_spec wThenFail 1 1).1).2 7
    rw [hk]
    rfl

/-- C7: a worker failure is never fatal — for any worker, in particular one
whose every invocation fails, the loop (with no stop requested) has not
exited after any number of iterations, has performed exactly one invocation
per iteration, is scheduled exactly one interval apart (clock `n * s`), and
records the failure of each completed failing cycle in `exception`. -/
theorem failures_never_fatal (w : Worker) (s : ℚ)
    (_hfail : ∀ n, ∃ e, w n = .error e) (n : Nat) :
    (runLoop w s n).done = false ∧
    (runLoop w s n).k = n ∧
    (runLoop w s n).now = n * s ∧
    (∀ m e, n = m + 1 → w m = .error e → (runLoop w s n).exc = some e) := by
  obtain ⟨hdone, hk, hnow⟩ := runLoop_spec w s n
  refine ⟨hdone, hk, hnow, ?_⟩
  rintro m e rfl he
  obtain ⟨hd, hkm, -⟩ := runLoop_spec w s m
  have : w (runLoop w s m).k = .error e := by rw [hkm]; exact he
  simp [runLoop, loopStep, hd, this]

/-- Witness for `failures_never_fatal`: the always-failing worker, interval 1,
after 3 cycles. -/
theorem failures_never_fatal_witness :
    (runLoop (fun _ => .error 5) 1 3).done = false ∧
    (runLoop (fun _ => .error 5) 1 3).k = 3 ∧
    (runLoop (fun _ => .error 5) 1 3).now = 3 * 1 ∧
    (runLoop (fun _ => .error 5) 1 3).exc = some 5 := by
  obtain ⟨h1, h2, h3, h4⟩ :=
    failures_never_fatal (fun _ => .error 5) 1 (fun _ => ⟨5, rfl⟩) 3
  exact ⟨h1, h2, h3, h4 2 5 rfl rfl⟩

/-- C8 as stated is FALSE on the code: after the second cycle of `wThenFail`
(first cycle succeeded with `1`, second cycle failed with `7`), the cycle did
not clear the other slot — `value` still holds `some 1` while `exception`
holds `some 7`, so it is not the case that exactly one of the two is set and
the other cleared. -/
theorem cycle_not_exactly_one :
    ¬ (((runLoop wThenFail 1 2).value ≠ none ∧
          (runLoop wThenFail 1 2).exc = none) ∨
        ((runLoop wThenFail 1 2).exc ≠ none ∧
          (runLoop wThenFail 1 2).value = none)) := by
  have h2 : runLoop wThenFail 1 2 =
      { now := 2, k := 2, value := some 1, exc := some 7, done := false } := by
    norm_num [runLoop, loopStep, initLoop, wThenFail]
  rw [h2]
  simp

/-- C8 amended: each cycle freshly writes exactly one of `value`/`exception` —
on success it sets `value` and clears `exception`, on failure it sets
`exception` and leaves `value` untouched (rather than clearing it); hence a
freshly set `value` and a set `exception` never coexist after one cycle:
either `exception` ends the cycle cleared, or `value` was not written. -/
theorem cycle_fresh_write_exclusive (w : Worker) (s : ℚ) (st : LoopState)
    (hdone : st.done = false) :
    (loopStep w s false st).exc = none ∨
    (loopStep w s false st).value = st.value := by
  rcases hw : w st.k with e | v
  · right; simp [loopStep, hdone, hw]
  · left; simp [loopStep, hdone, hw]

/-- Witness for `cycle_fresh_write_exclusive` at `wThenFail`, cycle 0. -/
theorem cycle_fresh_write_exclusive_witness :
    (loopStep wThenFail 1 false (initLoop none none)).exc = none ∨
    (loopStep wThenFail 1 false (initLoop none none)).value =
      (initLoop none none).value :=
  cycle_fresh_write_exclusive wThenFail 1 (initLoop none none) rfl

/-- C2 as stated is FALSE on the code: `time.sleep` is not interrupted by the
stop flag, so the stop-to-exit latency of a stop issued at time `ts` during
the first sleep is the whole remaining sleep `s - ts`, which is not bounded by
any constant independent of the interval `s`. -/
theorem stop_latency_unbounded :
    ¬ ∃ c : ℚ, ∀ s ts : ℚ, 0 < ts → ts ≤ s → stopToExitLatency s ts ≤ c := by
  rintro ⟨c, hc⟩
  have h1 : (0 : ℚ) < 1 := one_pos
  have h2 : (1 : ℚ) ≤ |c| + 2 := by
    have := abs_nonneg c
    linarith
  have hlat := hc (|c| + 2) 1 h1 h2
  have hcf := (timedStep_closed_form (|c| + 2) 1 h1 h2).2
  rw [stopToExitLatency, hcf] at hlat
  simp only at hlat
  have : c < |c| + 2 - 1 := by
    have := abs_nonneg c
    have := le_abs_self c
    linarith
  linarith

/-- C2 amended: a stop issued at time `ts` while the thread is inside the
first `time.sleep(s)` (`0 < ts ≤ s`) does not interrupt that sleep — after the
sleeping iteration the loop has still not exited — and the flag is observed
only at the top of the next iteration, so the loop exits exactly when the
sleep completes, at time `s`, and the stop-to-exit latency is the entire
remaining sleep `s - ts` (proportional to it, up to `intervalSeconds`). -/
theorem stop_waits_out_sleep (s ts : ℚ) (h1 : 0 < ts) (h2 : ts ≤ s) :
    (timedStep wOK s ts (initLoop none none)).done = false ∧
    (timedStep wOK s ts (timedStep wOK s ts (initLoop none none))).done = true ∧
    (timedStep wOK s ts (timedStep wOK s ts (initLoop none none))).now = s ∧
    stopToExitLatency s ts = s - ts := by
  obtain ⟨hfst, hsnd⟩ := timedStep_closed_form s ts h1 h2
  rw [stopToExitLatency, hsnd, hfst]
  simp

/-- Witness for `stop_waits_out_sleep` at interval `2`, stop time `1`. -/
theorem stop_waits_out_sleep_witness :
    (timedStep wOK 2 1 (initLoop none none)).done = false ∧
    (timedStep wOK 2 1 (timedStep wOK 2 1 (initLoop none none))).done = true ∧
    (timedStep wOK 2 1 (timedStep wOK 2 1 (initLoop none none))).now = 2 ∧
    stopToExitLatency 2 1 = 2 - 1 :=
  stop_waits_out_sleep 2 1 one_pos one_le_two

/-!
Registry model.

`SingleGlobalTaskRunner(key=k, worker=w, seconds=s)` runs `__new__` and then
`__init__`:

* `__new__` lazily creates the process-wide registry
  `pn.state.cache["__single_global_task_runners__"]`, looks `key` up, and —
  when absent — allocates a bare object and stores it in the registry
  BEFORE `__init__` runs; it returns the (existing or new) object.
* `__init__` calls `param.Parameterized.__init__(key=key, worker=w,
  seconds=s)`, which (re)assigns those three parameters on the object, in
  that keyword order, validating each on assignment:
  - `key = param.String(allow_None=False, constant=True)`: any `str` is
    accepted — the empty string included; re-assignment during a repeated
    `__init__` is permitted because param resets its `initialized` flag;
  - `worker = param.Callable(allow_None=False)`: the declared default is
    `None`, and param forces `allow_None` to `True` whenever the default is
    `None`, so a missing (`None`) worker is accepted without error — calling
    it later in `_task_runner` raises `TypeError`, which the loop's
    `except Exception` catches like any worker failure;
  - `seconds = param.Number(default=1.0, bounds=(0.001, None))`: assignment
    raises `ValueError` exactly when the value is below `0.001` (bounds are
    inclusive).
  Then, if the object already has a live thread
  (`hasattr(self, "_thread") and self._thread.is_alive()`), `__init__`
  returns early; otherwise it sets `_stop_thread = False` and starts a new
  thread running `_task_runner`.

Object identity is modelled by a `Nat` id; the heap maps ids to handle
states, the registry maps keys to ids.  `getH` defaults to the bare-object
state for ids absent from the heap (never hit from reachable states).
-/

/-- One `SingleGlobalTaskRunner` object: the three parameters set by
`__init__`, the `_stop_thread` flag, and the `_thread` running
`_task_runner` (`none` = the `_thread` attribute was never created). -/
structure Handle where
  key : String
  worker : Option Worker
  seconds : ℚ
  stopFlag : Bool
  loop : Option LoopState

/-- The bare object returned by `super().__new__` before `__init__` assigns
anything: param class defaults (`key=""`, `worker=None`, `seconds=1.0`),
no `_stop_thread`/`_thread` attributes yet. -/
def defaultHandle : Handle :=
  { key := "", worker := none, seconds := 1, stopFlag := false, loop := none }

/-- Truth of `hasattr(self, "_thread") and self._thread.is_alive()`: the
thread exists and its `while` loop has not exited. -/
def Handle.alive (h : Handle) : Bool :=
  match h.loop with
  | some st => !st.done
  | none => false

/-- The handle's `value` parameter as published by its own thread. -/
def Handle.lastValue (h : Handle) : Option Val :=
  match h.loop with
  | some st => st.value
  | none => none

/-- The handle's `exception` parameter as published by its own thread. -/
def Handle.lastExc (h : Handle) : Option Err :=
  match h.loop with
  | some st => st.exc
  | none => none

/-- Error code standing for the `TypeError` raised by `self.worker()` when
`worker` is `None`. -/
def noneNotCallable : Err := -1

/-- The function the loop actually calls: the supplied worker, or — when
`worker` is `None` — one that raises `TypeError` on every call. -/
def effWorker : Option Worker → Worker
  | some w => w
  | none => fun _ => .error noneNotCallable

/-- Association-list lookup (Python `dict.get`). -/
def lookupA {α β : Type} [DecidableEq α] (k : α) : List (α × β) → Option β
  | [] => none
  | (a, b) :: t => if a = k then some b else lookupA k t

/-- Association-list assignment (Python `dict[k] = v`). -/
def setA {α β : Type} [DecidableEq α] (k : α) (v : β) :
    List (α × β) → List (α × β)
  | [] => [(k, v)]
  | (a, b) :: t => if a = k then (k, v) :: t else (a, b) :: setA k v t

/-- Association-list deletion (Python `del dict[k]`, no-op when absent). -/
def eraseA {α β : Type} [DecidableEq α] (k : α) (l : List (α × β)) :
    List (α × β) :=
  l.filter (fun p => ¬ (p.1 = k))

/-- Process state: the registry dict under
`pn.state.cache["__single_global_task_runners__"]` (key → object id), the
object heap, and the next fresh object id. -/
structure Sys where
  cache : List (String × Nat)
  heap : List (Nat × Handle)
  next : Nat

/-- The process before any runner was created. -/
def sysInit : Sys := { cache := [], heap := [], next := 0 }

/-- The object an id denotes. -/
def getH (σ : Sys) (i : Nat) : Handle :=
  (lookupA i σ.heap).getD defaultHandle

/-- Outcome of `SingleGlobalTaskRunner(...)`: the returned object's identity,
or the `ValueError` raised by param's bounds validation. -/
inductive AcqResult
  | ok (id : Nat)
  | configError
deriving DecidableEq, Repr

/-- Lower bound of the `seconds` parameter: `bounds=(0.001, None)`. -/
def minSeconds : ℚ := 1 / 1000

/-- The call `SingleGlobalTaskRunner(key=k, worker=w, seconds=s)`:
`__new__` (registry lookup, allocate-and-register when absent) followed by
`__init__` (param assignments with validation, then early return when a live
thread exists, else flag reset and thread start). -/
def acquire (k : String) (w : Option Worker) (s : ℚ) (σ : Sys) :
    AcqResult × Sys :=
  let idσ :=
    match lookupA k σ.cache with
    | some i => (i, σ)
    | none =>
        (σ.next,
          { cache := setA k σ.next σ.cache,
            heap := setA σ.next defaultHandle σ.heap,
            next := σ.next + 1 })
  let i := idσ.1
  let σ1 := idσ.2
  let h := getH σ1 i
  let h1 := { h with key := k, worker := w }
  if s < minSeconds then
    (.configError, { σ1 with heap := setA i h1 σ1.heap })
  else
    let h2 := { h1 with seconds := s }
    if h2.alive then
      (.ok i, { σ1 with heap := setA i h2 σ1.heap })
    else
      let h3 := { h2 with stopFlag := false,
                          loop := some (initLoop h2.lastValue h2.lastExc) }
      (.ok i, { σ1 with heap := setA i h3 σ1.heap })

/-- The method `remove()`: set `_stop_thread`, `join()` the thread (the loop
observes the flag at its next check and exits — one more `loopStep` with the
flag up, which is the identity when the loop had already exited), then delete
the registry entry under the handle's own `key` when present.  Returns `none`
for the `AttributeError` raised by `self._thread` when no thread was ever
started. -/
def removeH (i : Nat) (σ : Sys) : Option Sys :=
  let h := getH σ i
  let h1 := { h with stopFlag := true }
  match h1.loop with
  | none => none
  | some st =>
      let st1 := loopStep (effWorker h1.worker) h1.seconds true st
      let h2 := { h1 with loop := some st1 }
      some { σ with heap := setA i h2 σ.heap,
                    cache := eraseA h2.key σ.cache }

/-- The classmethod `remove_all()`: call `remove` on every object in
`list(cache.values())` (the registered ids at entry), then replace the
registry with a fresh empty dict. -/
def removeAll (σ : Sys) : Option Sys :=
  ((σ.cache.map (·.2)).foldlM (fun τ i => removeH i τ) σ).map
    (fun τ => { τ with cache := [] })

theorem lookupA_setA_self {α β : Type} [DecidableEq α] (k : α) (v : β)
    (l : List (α × β)) : lookupA k (setA k v l) = some v := by
  induction l with
  | nil => simp [setA, lookupA]
  | cons p t ih =>
    by_cases hp : p.1 = k
    · simp [setA, lookupA, hp]
    · simp [setA, lookupA, hp, ih]

theorem lookupA_setA_ne {α β : Type} [DecidableEq α] (k k' : α) (v : β)
    (l : List (α × β)) (hne : k' ≠ k) :
    lookupA k (setA k' v l) = lookupA k l := by
  induction l with
  | nil => simp [setA, lookupA, hne]
  | cons p t ih =>
    by_cases hp : p.1 = k'
    · simp [setA, lookupA, hp, hne, ih]
    · simp [setA, lookupA, hp, ih]

theorem setA_lookup_self {α β : Type} [DecidableEq α] (k : α) (v : β)
    (l : List (α × β)) (hl : lookupA k l = some v) : setA k v l = l := by
  induction l with
  | nil => simp [lookupA] at hl
  | cons p t ih =>
    obtain ⟨a, b⟩ := p
    by_cases hp : a = k
    · subst hp
      simp [lookupA] at hl
      simp [setA, hl]
    · simp [lookupA, hp] at hl
      simp [setA, hp, ih hl]

theorem lookupA_eraseA_self {α β : Type} [DecidableEq α] (k : α)
    (l : List (α × β)) : lookupA k (eraseA k l) = none := by
  induction l with
  | nil => simp [eraseA, lookupA]
  | cons p t ih =>
    by_cases hp : p.1 = k
    · simpa [eraseA, lookupA, hp] using ih
    · simpa [eraseA, lookupA, hp] using ih

theorem eraseA_eraseA {α β : Type} [DecidableEq α] (k : α)
    (l : List (α × β)) : eraseA k (eraseA k l) = eraseA k l := by
  simp [eraseA, List.filter_filter]

theorem loopStep_done (w : Worker) (s : ℚ) (f : Bool) (st : LoopState)
    (h : st.done = true) : loopStep w s f st = st := by
  simp [loopStep, h]

theorem loopStep_true_done (w : Worker) (s : ℚ) (st : LoopState) :
    (loopStep w s true st).done = true := by
  by_cases h : st.done = true
  · simp [loopStep, h]
  · simp at h
    simp [loopStep, h]

/-- Evaluation of `acquire` on a key not in the registry with a valid
interval: a fresh object is registered under the fresh id and its thread is
started. -/
theorem acquire_fresh (k : String) (w : Option Worker) (s : ℚ) (σ : Sys)
    (hc : lookupA k σ.cache = none) (hs : ¬ s < minSeconds) :
    acquire k w s σ =
      (.ok σ.next,
        { cache := setA k σ.next σ.cache,
          heap := setA σ.next
            { key := k, worker := w, seconds := s, stopFlag := false,
              loop := some (initLoop none none) }
            (setA σ.next defaultHandle σ.heap),
          next := σ.next + 1 }) := by
  simp [acquire, hc, hs, getH, lookupA_setA_self, defaultHandle, Handle.alive,
    Handle.lastValue, Handle.lastExc]

/-- Evaluation of `acquire` on a key not in the registry with an interval
below the bound: the fresh object is registered (with `key` and `worker`
already assigned) before the `seconds` assignment raises, and no thread is
started on it. -/
theorem acquire_fresh_error (k : String) (w : Option Worker) (s : ℚ) (σ : Sys)
    (hc : lookupA k σ.cache = none) (hs : s < minSeconds) :
    acquire k w s σ =
      (.configError,
        { cache := setA k σ.next σ.cache,
          heap := setA σ.next
            { key := k, worker := w, seconds := 1, stopFlag := false,
              loop := none }
            (setA σ.next defaultHandle σ.heap),
          next := σ.next + 1 }) := by
  simp [acquire, hc, hs, getH, lookupA_setA_self, defaultHandle]

/-- Evaluation of `acquire` on a registered key whose object has a live
thread and a valid interval: the registered object is returned, no thread is
started, and its `key`/`worker`/`seconds` parameters are re-assigned from
this call's arguments. -/
theorem acquire_existing_alive (k : String) (w : Option Worker) (s : ℚ)
    (σ : Sys) (i : Nat)
    (hc : lookupA k σ.cache = some i)
    (halive : (getH σ i).alive = true) (hs : ¬ s < minSeconds) :
    acquire k w s σ =
      (.ok i,
        { σ with
          heap := setA i
                    { getH σ i with key := k, worker := w, seconds := s }
                    σ.heap }) := by
  have halive' :
      ({ getH σ i with
         key := k, worker := w, seconds := s } : Handle).alive = true := by
    simpa [Handle.alive] using halive
  simp [acquire, hc, hs, halive']

/-- Evaluation of `acquire` on a registered key whose object has no live
thread (never started, or already exited) and a valid interval: the
registered object is returned with its parameters re-assigned and a new
thread is started on it. -/
theorem acquire_existing_dead (k : String) (w : Option Worker) (s : ℚ)
    (σ : Sys) (i : Nat)
    (hc : lookupA k σ.cache = some i)
    (hdead : (getH σ i).alive = false) (hs : ¬ s < minSeconds) :
    acquire k w s σ =
      (.ok i,
        { σ with
          heap := setA i
                    { getH σ i with
                      key := k, worker := w, seconds := s,
                      stopFlag := false,
                      loop := some (initLoop (getH σ i).lastValue
                                      (getH σ i).lastExc) }
                    σ.heap }) := by
  have hdead' :
      ({ getH σ i with
         key := k, worker := w, seconds := s } : Handle).alive = false := by
    simpa [Handle.alive] using hdead
  simp [acquire, hc, hs, hdead', Handle.lastValue, Handle.lastExc]

/-- Evaluation of `remove` on an object with a thread: the flag is set, the
join lets the loop observe it and exit, and the registry entry under the
object's `key` is deleted. -/
theorem removeH_eval (i : Nat) (σ : Sys) (st : LoopState)
    (hloop : (getH σ i).loop = some st) :
    removeH i σ =
      some { σ with
             heap := setA i
                       { getH σ i with
                         stopFlag := true,
                         loop := some (loopStep (effWorker (getH σ i).worker)
                                         (getH σ i).seconds true st) }
                       σ.heap,
             cache := eraseA (getH σ i).key σ.cache } := by
  simp [removeH, hloop]

/-- C3 as stated is FALSE on the code: `acquire` with the empty key and a
valid worker/interval succeeds (param's `String` accepts `""`), `acquire`
with a missing (`None`) worker succeeds (param forces `allow_None := True`
because the declared default is `None`), and `acquire` with the positive
interval `1/2000` — not one of the claim's three constraint violations —
raises the bounds `ValueError`, so the operation can fail on other inputs. -/
theorem acquire_validation_claim_false :
    ¬ ((acquire "" (some wOK) 1 sysInit).1 = .configError) ∧
    ¬ ((acquire "x" none 1 sysInit).1 = .configError) ∧
    (acquire "y" (some wOK) (1 / 2000) sysInit).1 = .configError := by
  have hs1 : ¬ (1 : ℚ) < minSeconds := by norm_num [minSeconds]
  have hs2 : (1 / 2000 : ℚ) < minSeconds := by norm_num [minSeconds]
  refine ⟨?_, ?_, ?_⟩
  · rw [acquire_fresh "" (some wOK) 1 sysInit rfl hs1]
    simp
  · rw [acquire_fresh "x" none 1 sysInit rfl hs1]
    simp
  · rw [acquire_fresh_error "y" (some wOK) (1 / 2000) sysInit rfl hs2]

/-- C3 amended: `acquire` raises a configuration error exactly when the
requested interval is below the declared lower bound `0.001` (in particular
for every non-positive interval); an empty key or a missing worker is
accepted without error.  When the error is raised for a fresh key, it is
raised before any background execution starts: the registered object has no
thread. -/
theorem acquire_config_error_iff (k : String) (w : Option Worker) (s : ℚ)
    (σ : Sys) :
    ((acquire k w s σ).1 = .configError ↔ s < minSeconds) ∧
    (lookupA k σ.cache = none → s < minSeconds →
      (getH (acquire k w s σ).2 σ.next).loop = none) := by
  constructor
  · by_cases hs : s < minSeconds
    · simp only [hs, iff_true]
      cases hc : lookupA k σ.cache with
      | none => rw [acquire_fresh_error k w s σ hc hs]
      | some i => simp [acquire, hc, hs]
    · simp only [hs, iff_false]
      cases hc : lookupA k σ.cache with
      | none =>
        rw [acquire_fresh k w s σ hc hs]
        simp
      | some i =>
        cases ha : (getH σ i).alive with
        | true =>
          rw [acquire_existing_alive k w s σ i hc ha hs]
          simp
        | false =>
          rw [acquire_existing_dead k w s σ i hc ha hs]
          simp
  · intro hc hs
    rw [acquire_fresh_error k w s σ hc hs]
    simp [getH, lookupA_setA_self]

/-- Witness for `acquire_config_error_iff` at a fresh key with the interval
`1/2000`, which is below the bound. -/
theorem acquire_config_error_iff_witness :
    (acquire "x" (some wOK) (1 / 2000) sysInit).1 = .configError ∧
    (getH (acquire "x" (some wOK) (1 / 2000) sysInit).2 sysInit.next).loop =
      none :=
  ⟨(acquire_config_error_iff "x" (some wOK) (1 / 2000) sysInit).1.mpr
      (by norm_num [minSeconds]),
    (acquire_config_error_iff "x" (some wOK) (1 / 2000) sysInit).2 rfl
      (by norm_num [minSeconds])⟩

/-- C1 as stated is FALSE on the code: after `acquire("x", wOK, 1)` followed
by `acquire("x", wThenFail, 2)`, the second call does return the same handle
(id `0`), but the handle's `seconds` is now `2`, not the first call's `1` —
re-running `__init__` on the returned singleton re-assigns `worker` and
`seconds` from the second call's arguments. -/
theorem reacquire_ignores_new_args_false :
    ¬ ((acquire "x" (some wThenFail) 2
          (acquire "x" (some wOK) 1 sysInit).2).1 = .ok 0 ∧
        (getH (acquire "x" (some wThenFail) 2
          (acquire "x" (some wOK) 1 sysInit).2).2 0).seconds = 1) := by
  have hs1 : ¬ (1 : ℚ) < minSeconds := by norm_num [minSeconds]
  have hs2 : ¬ (2 : ℚ) < minSeconds := by norm_num [minSeconds]
  rw [acquire_fresh "x" (some wOK) 1 sysInit rfl hs1]
  rintro ⟨-, habs⟩
  rw [acquire_existing_alive "x" (some wThenFail) 2 _ 0
    (lookupA_setA_self _ _ _)
    (by simp [getH, lookupA_setA_self, Handle.alive, initLoop, sysInit])
    hs2] at habs
  rw [show sysInit.next = 0 from rfl] at habs
  simp [getH, lookupA_setA_self] at habs

/-- C1 amended: while the registered handle for `key` has a live thread, a
second `acquire(key, w2, i2)` returns the very same handle (same identity)
and starts no new thread — the running loop's state is untouched — but the
handle's `worker` and `seconds` parameters are overwritten with `w2`/`i2`
(which the running loop reads on its subsequent cycles), rather than the
first call's arguments being retained. -/
theorem reacquire_same_handle_overwrites (σ : Sys) (k : String) (i : Nat)
    (w2 : Option Worker) (s2 : ℚ)
    (hk : lookupA k σ.cache = some i)
    (halive : (getH σ i).alive = true)
    (hs2 : ¬ s2 < minSeconds) :
    (acquire k w2 s2 σ).1 = .ok i ∧
    getH (acquire k w2 s2 σ).2 i =
      { getH σ i with key := k, worker := w2, seconds := s2 } := by
  rw [acquire_existing_alive k w2 s2 σ i hk halive hs2]
  exact ⟨rfl, by simp [getH, lookupA_setA_self]⟩

/-- A concrete registry state with one live handle under key `"x"`. -/
def hW : Handle :=
  { key := "x", worker := some wOK, seconds := 1, stopFlag := false,
    loop := some (initLoop none none) }

/-- A concrete process state holding `hW` registered under `"x"`. -/
def σW : Sys := { cache := [("x", 0)], heap := [(0, hW)], next := 1 }

/-- Witness for `reacquire_same_handle_overwrites` at the state `σW`. -/
theorem reacquire_same_handle_overwrites_witness :
    (acquire "x" (some wThenFail) 2 σW).1 = .ok 0 ∧
    getH (acquire "x" (some wThenFail) 2 σW).2 0 =
      { getH σW 0 with key := "x", worker := some wThenFail, seconds := 2 } :=
  reacquire_same_handle_overwrites σW "x" 0 (some wThenFail) 2
    (by simp [σW, lookupA])
    (by simp [σW, getH, lookupA, hW, Handle.alive, initLoop])
    (by norm_num [minSeconds])

/-- C9: when `acquire` raises the bounds `ValueError` for a fresh key, the
bare object has already been registered under the key by `__new__` before
`__init__` raised, and it has no background thread; a later `acquire` for the
same key finds and returns that registered handle (same id) instead of
building a fresh one. -/
theorem failed_acquire_registers_handle (σ : Sys) (k : String)
    (w1 w2 : Option Worker) (s1 s2 : ℚ)
    (hc : lookupA k σ.cache = none)
    (hs1 : s1 < minSeconds)
    (hs2 : ¬ s2 < minSeconds) :
    (acquire k w1 s1 σ).1 = .configError ∧
    lookupA k ((acquire k w1 s1 σ).2).cache = some σ.next ∧
    (getH (acquire k w1 s1 σ).2 σ.next).loop = none ∧
    (acquire k w2 s2 (acquire k w1 s1 σ).2).1 = .ok σ.next := by
  rw [acquire_fresh_error k w1 s1 σ hc hs1]
  refine ⟨rfl, lookupA_setA_self _ _ _, by simp [getH, lookupA_setA_self], ?_⟩
  rw [acquire_existing_dead k w2 s2 _ σ.next (lookupA_setA_self _ _ _)
    (by simp [getH, lookupA_setA_self, Handle.alive]) hs2]

/-- Witness for `failed_acquire_registers_handle` from the empty process
state, with the below-bound interval `1/2000` and the repair interval `1`. -/
theorem failed_acquire_registers_handle_witness :
    (acquire "x" (some wOK) (1 / 2000) sysInit).1 = .configError ∧
    lookupA "x" ((acquire "x" (some wOK) (1 / 2000) sysInit).2).cache =
      some sysInit.next ∧
    (getH (acquire "x" (some wOK) (1 / 2000) sysInit).2 sysInit.next).loop =
      none ∧
    (acquire "x" (some wThenFail) 1
      (acquire "x" (some wOK) (1 / 2000) sysInit).2).1 = .ok sysInit.next :=
  failed_acquire_registers_handle sysInit "x" (some wOK) (some wThenFail)
    (1 / 2000) 1 rfl (by norm_num [minSeconds]) (by norm_num [minSeconds])

/-- C10: calling `remove` a second time on a handle that was already stopped
and removed raises no error and changes nothing: the flag is already set, the
join on the finished thread is immediate (the loop is already done), and the
handle's key is absent from the registry, so the deletion is skipped — the
second `remove` maps the post-first-`remove` state to itself. -/
theorem remove_twice_noop (σ : Sys) (i : Nat) (st : LoopState) (σ1 : Sys)
    (hloop : (getH σ i).loop = some st)
    (hrem : removeH i σ = some σ1) :
    removeH i σ1 = some σ1 := by
  rw [removeH_eval i σ st hloop] at hrem
  injection hrem with h
  subst h
  set st1 := loopStep (effWorker (getH σ i).worker) (getH σ i).seconds true st
    with hst1
  set h2 : Handle := { getH σ i with stopFlag := true, loop := some st1 }
    with hh2
  set R : Sys := { σ with
                   heap := setA i h2 σ.heap,
                   cache := eraseA (getH σ i).key σ.cache } with hR
  have hget : getH R i = h2 := by
    simp [getH, hR, lookupA_setA_self]
  have hst1done : st1.done = true := loopStep_true_done _ _ _
  have hloopR : (getH R i).loop = some st1 := by rw [hget]
  rw [removeH_eval i R st1 hloopR]
  rw [hget]
  rw [loopStep_done _ _ _ _ hst1done]
  have hupd : ({ h2 with stopFlag := true, loop := some st1 } : Handle) =
      h2 := by
    rw [hh2]
  rw [hupd]
  have hheap : setA i h2 R.heap = R.heap := by
    apply setA_lookup_self
    simp [hR, lookupA_setA_self]
  have hkey : h2.key = (getH σ i).key := by rw [hh2]
  have hcache : eraseA h2.key R.cache = R.cache := by
    rw [hkey]
    simp [hR, eraseA_eraseA]
  rw [hheap, hcache]

/-- Witness for `remove_twice_noop`: remove the live handle of `σW` twice. -/
theorem remove_twice_noop_witness :
    removeH 0 ((removeH 0 σW).getD σW) = some ((removeH 0 σW).getD σW) := by
  have hloop : (getH σW 0).loop = some (initLoop none none) := by
    simp [σW, getH, lookupA, hW]
  have h1 := removeH_eval 0 σW (initLoop none none) hloop
  have h2 := remove_twice_noop σW 0 (initLoop none none) _ hloop h1
  rw [h1]
  simpa using h2

/-- C5: after `remove` returns, the handle's loop has exited and can never
write `value`/`exception` again (every further loop step is the identity on
its final state), the key is gone from the registry, and a subsequent
`acquire` for the same key builds a fresh handle under a new id. -/
theorem remove_guarantees (σ : Sys) (i : Nat) (k : String) (st : LoopState)
    (w2 : Option Worker) (s2 : ℚ)
    (_hk : lookupA k σ.cache = some i)
    (hkey : (getH σ i).key = k)
    (hloop : (getH σ i).loop = some st)
    (hi : i < σ.next)
    (hs2 : ¬ s2 < minSeconds) :
    ∃ σ1 st1, removeH i σ = some σ1 ∧
      (getH σ1 i).loop = some st1 ∧ st1.done = true ∧
      (∀ w f s, loopStep w s f st1 = st1) ∧
      lookupA k σ1.cache = none ∧
      (acquire k w2 s2 σ1).1 = .ok σ.next ∧ σ.next ≠ i := by
  set st1 := loopStep (effWorker (getH σ i).worker) (getH σ i).seconds true st
    with hst1
  set h2 : Handle := { getH σ i with stopFlag := true, loop := some st1 }
    with hh2
  set σ1 : Sys := { σ with
                    heap := setA i h2 σ.heap,
                    cache := eraseA (getH σ i).key σ.cache } with hσ1
  have hrem : removeH i σ = some σ1 := by
    rw [hσ1, hh2, hst1]
    exact removeH_eval i σ st hloop
  have hdone : st1.done = true := loopStep_true_done _ _ _
  have hc : lookupA k σ1.cache = none := by
    rw [hσ1]
    simp only [hkey]
    exact lookupA_eraseA_self k σ.cache
  refine ⟨σ1, st1, hrem, ?_, hdone, ?_, hc, ?_, ?_⟩
  · simp [getH, hσ1, lookupA_setA_self, hh2]
  · intro w f s
    exact loopStep_done w s f st1 hdone
  · rw [acquire_fresh k w2 s2 σ1 hc hs2]
  · omega

/-- Witness for `remove_guarantees` at the state `σW`. -/
theorem remove_guarantees_witness :
    ∃ σ1 st1, removeH 0 σW = some σ1 ∧
      (getH σ1 0).loop = some st1 ∧ st1.done = true ∧
      (∀ w f s, loopStep w s f st1 = st1) ∧
      lookupA "x" σ1.cache = none ∧
      (acquire "x" (some wThenFail) 1 σ1).1 = .ok σW.next ∧ σW.next ≠ 0 :=
  remove_guarantees σW 0 "x" (initLoop none none) (some wThenFail) 1
    (by simp [σW, lookupA])
    (by simp [σW, getH, lookupA, hW])
    (by simp [σW, getH, lookupA, hW])
    (by norm_num [σW])
    (by norm_num [minSeconds])

/-- Inversion of a successful `remove`: the handle had a thread, and the
result state is the one `removeH_eval` describes. -/
theorem removeH_inv (i : Nat) (σ σ1 : Sys) (h : removeH i σ = some σ1) :
    ∃ st, (getH σ i).loop = some st ∧
      σ1 = { σ with
             heap := setA i
                       { getH σ i with
                         stopFlag := true,
                         loop := some (loopStep (effWorker (getH σ i).worker)
                                         (getH σ i).seconds true st) }
                       σ.heap,
             cache := eraseA (getH σ i).key σ.cache } := by
  cases hl : (getH σ i).loop with
  | none =>
    exfalso
    have hnone : removeH i σ = none := by simp [removeH, hl]
    rw [hnone] at h
    exact Option.noConfusion h
  | some st =>
    rw [removeH_eval i σ st hl] at h
    exact ⟨st, rfl, (Option.some.inj h).symm⟩

theorem removeH_next (i : Nat) (σ σ1 : Sys) (h : removeH i σ = some σ1) :
    σ1.next = σ.next := by
  obtain ⟨st, -, rfl⟩ := removeH_inv i σ σ1 h
  rfl

theorem removeH_getH_ne (i j : Nat) (σ σ1 : Sys) (h : removeH i σ = some σ1)
    (hne : j ≠ i) : getH σ1 j = getH σ j := by
  obtain ⟨st, -, rfl⟩ := removeH_inv i σ σ1 h
  simp [getH, lookupA_setA_ne j i _ _ (Ne.symm hne)]

theorem removeH_loop_done (i : Nat) (σ σ1 : Sys)
    (h : removeH i σ = some σ1) :
    ∃ st1, (getH σ1 i).loop = some st1 ∧ st1.done = true := by
  obtain ⟨st, -, rfl⟩ := removeH_inv i σ σ1 h
  refine ⟨loopStep (effWorker (getH σ i).worker) (getH σ i).seconds true st,
    ?_, loopStep_true_done _ _ _⟩
  simp [getH, lookupA_setA_self]

theorem removeH_of_isSome (i : Nat) (σ : Sys)
    (h : ((getH σ i).loop).isSome = true) :
    ∃ σ1, removeH i σ = some σ1 := by
  obtain ⟨st, hst⟩ := Option.isSome_iff_exists.mp h
  exact ⟨_, removeH_eval i σ st hst⟩

/-- A thread that has already exited stays exited across any later `remove`
(whether of the same handle or another one). -/
theorem removeH_preserves_done (j i : Nat) (σ σ1 : Sys)
    (h : removeH i σ = some σ1) (st : LoopState)
    (hj : (getH σ j).loop = some st) (hd : st.done = true) :
    ∃ st1, (getH σ1 j).loop = some st1 ∧ st1.done = true := by
  by_cases hji : j = i
  · subst hji
    obtain ⟨st0, hst0, rfl⟩ := removeH_inv j σ σ1 h
    rw [hj] at hst0
    obtain rfl := Option.some.inj hst0
    refine ⟨st, ?_, hd⟩
    simp [getH, lookupA_setA_self, loopStep_done _ _ _ _ hd]
  · rw [removeH_getH_ne i j σ σ1 h hji]
    exact ⟨st, hj, hd⟩

/-- An exited loop stays exited across any sequence of `remove` calls. -/
theorem fold_preserves_done (ids : List Nat) (σ σ1 : Sys)
    (hfold : ids.foldlM (fun τ j => removeH j τ) σ = some σ1)
    (j : Nat) (st : LoopState) (hj : (getH σ j).loop = some st)
    (hd : st.done = true) :
    ∃ st1, (getH σ1 j).loop = some st1 ∧ st1.done = true := by
  induction ids generalizing σ st with
  | nil =>
    simp [List.foldlM] at hfold
    exact ⟨st, hfold ▸ hj, hd⟩
  | cons b bs ihb =>
    rw [List.foldlM_cons] at hfold
    cases hσb : removeH b σ with
    | none =>
      rw [hσb] at hfold
      exact absurd hfold (by simp)
    | some σb =>
      rw [hσb] at hfold
      simp only [Option.bind_eq_bind, Option.some_bind] at hfold
      obtain ⟨st1, h1, hd1⟩ := removeH_preserves_done j b σ σb hσb st hj hd
      exact ihb σb hfold st1 h1 hd1

/-- Effect of the `for gtw in list(...): gtw.remove()` loop of `remove_all`
over a list of object ids, provided each has a thread: the fold succeeds,
preserves the id supply, and leaves every listed handle's loop exited. -/
theorem fold_remove_spec (ids : List Nat) (σ : Sys)
    (hlive : ∀ i ∈ ids, ((getH σ i).loop).isSome = true) :
    ∃ σ1, ids.foldlM (fun τ j => removeH j τ) σ = some σ1 ∧
      σ1.next = σ.next ∧
      (∀ i ∈ ids, ∃ st, (getH σ1 i).loop = some st ∧ st.done = true) := by
  induction ids generalizing σ with
  | nil => exact ⟨σ, rfl, rfl, by simp⟩
  | cons i t ih =>
    obtain ⟨σa, hσa⟩ := removeH_of_isSome i σ (hlive i (by simp))
    have hliveA : ∀ j ∈ t, ((getH σa j).loop).isSome = true := by
      intro j hj
      by_cases hji : j = i
      · subst hji
        obtain ⟨st1, h1, -⟩ := removeH_loop_done j σ σa hσa
        simp [h1]
      · rw [removeH_getH_ne i j σ σa hσa hji]
        exact hlive j (by simp [hj])
    obtain ⟨σ1, hfold, hnext, hdone⟩ := ih σa hliveA
    refine ⟨σ1, ?_, ?_, ?_⟩
    · rw [List.foldlM_cons, hσa]
      simpa using hfold
    · rw [hnext, removeH_next i σ σa hσa]
    · intro j hj
      rcases List.mem_cons.mp hj with rfl | hjt
      · obtain ⟨st1, h1, hd1⟩ := removeH_loop_done j σ σa hσa
        exact fold_preserves_done t σa σ1 hfold j st1 h1 hd1
      · exact hdone j hjt

/-- C6: `remove_all` stops and evicts every currently registered handle
(provided each has a thread — true of every handle whose construction
completed): it succeeds, the registry is empty on return, every previously
registered handle's loop has exited, and a subsequent `acquire` for any
previously registered key builds a new handle under a fresh id. -/
theorem remove_all_empties_registry (σ : Sys) (w2 : Option Worker) (s2 : ℚ)
    (hlive : ∀ p ∈ σ.cache, ((getH σ p.2).loop).isSome = true)
    (hwf : ∀ p ∈ σ.cache, p.2 < σ.next)
    (hs2 : ¬ s2 < minSeconds) :
    ∃ σ1, removeAll σ = some σ1 ∧ σ1.cache = [] ∧
      (∀ p ∈ σ.cache, ∃ st, (getH σ1 p.2).loop = some st ∧ st.done = true) ∧
      (∀ p ∈ σ.cache,
        (acquire p.1 w2 s2 σ1).1 = .ok σ1.next ∧ σ1.next ≠ p.2) := by
  have hlive' : ∀ i ∈ σ.cache.map (·.2), ((getH σ i).loop).isSome = true := by
    intro i hi
    obtain ⟨p, hp, rfl⟩ := List.mem_map.mp hi
    exact hlive p hp
  obtain ⟨τ, hfold, hnext, hdone⟩ :=
    fold_remove_spec (σ.cache.map (·.2)) σ hlive'
  refine ⟨{ τ with cache := [] }, ?_, rfl, ?_, ?_⟩
  · rw [removeAll, hfold]
    rfl
  · intro p hp
    exact hdone p.2 (List.mem_map.mpr ⟨p, hp, rfl⟩)
  · intro p hp
    have hc : lookupA p.1 ({ τ with cache := [] } : Sys).cache = none := rfl
    rw [acquire_fresh p.1 w2 s2 _ hc hs2]
    refine ⟨rfl, ?_⟩
    have hwfp := hwf p hp
    show τ.next ≠ p.2
    omega

/-- A second concrete live handle, registered under key `"y"`. -/
def hW2 : Handle :=
  { key := "y", worker := some wThenFail, seconds := 1, stopFlag := false,
    loop := some (initLoop none none) }

/-- A concrete process state with two live handles. -/
def σW2 : Sys :=
  { cache := [("x", 0), ("y", 1)], heap := [(0, hW), (1, hW2)], next := 2 }

/-- Witness for `remove_all_empties_registry` at the state `σW2`. -/
theorem remove_all_empties_registry_witness :
    ∃ σ1, removeAll σW2 = some σ1 ∧ σ1.cache = [] ∧
      (∀ p ∈ σW2.cache,
        ∃ st, (getH σ1 p.2).loop = some st ∧ st.done = true) ∧
      (∀ p ∈ σW2.cache,
        (acquire p.1 (some wOK) 1 σ1).1 = .ok σ1.next ∧ σ1.next ≠ p.2) :=
  remove_all_empties_registry σW2 (some wOK) 1
    (by
      intro p hp
      rcases List.mem_cons.mp hp with rfl | hp2
      · simp [σW2, getH, lookupA, hW]
      · rcases List.mem_cons.mp hp2 with rfl | hp3
        · simp [σW2, getH, lookupA, hW2]
        · exact absurd hp3 (List.not_mem_nil _))
    (by
      intro p hp
      rcases List.mem_cons.mp hp with rfl | hp2
      · norm_num [σW2]
      · rcases List.mem_cons.mp hp2 with rfl | hp3
        · norm_num [σW2]
        · exact absurd hp3 (List.not_mem_nil _))
    (by norm_num [minSeconds])
